import Mathlib

deriving instance DecidableEq for Except

/-!
Verification of the dbgp protocol gateway (conn.go, errors.go, gdbproxy/gdbproxy.go).

The Go sources are embedded shallowly: pure data flow becomes Lean functions,
the connection's read loop becomes an explicit step function over the byte
stream, and the gdb adapter becomes a state-passing machine whose console
channel is modelled as the sequence of line batches that the quiescence
collector returns.  Machine integers are modelled as Int/Nat (the program
performs no arithmetic near the overflow boundary).
-/

namespace Dbgp

/-! ### errors.go -/

/-- The dbgpError record from errors.go: a protocol error code plus message. -/
structure dbgpError where
  Code : Int
  Message : String
deriving DecidableEq

def ErrParseError : dbgpError := ⟨1, "Parse Error"⟩

def ErrInvalidOpts : dbgpError := ⟨3, "Invaild Options"⟩

def ErrUnimplemented : dbgpError := ⟨4, "Unimplemented"⟩

/-- A Go error value as seen by conn.go: either a dbgpError or any other
error carrying its Error() message. -/
inductive GoError where
  | dbgp (e : dbgpError)
  | other (msg : String)
deriving DecidableEq

/-- The Error() method: dbgpError renders as "message (code)"; for any other
error value we carry its message verbatim. -/
def GoError.errorString : GoError → String
  | .dbgp e => e.Message ++ " (" ++ toString e.Code ++ ")"
  | .other m => m

/-! ### Protocol data model (dbgp.go, exported fields that conn.go renders) -/

/-- One call-frame record.  The source field Type (a Lean keyword) is named
Typ here. -/
structure Stack where
  Level : Int
  Typ : String
  Filename : String
  Lineno : Int
  Where : String
deriving DecidableEq

structure Context where
  Name : String
  ID : Int
deriving DecidableEq

/-- A variable/value record; only the exported fields the program writes are
modelled (source field Type is named Typ). -/
structure Property where
  Name : String
  Fullname : String
  Address : String
  Typ : String
deriving DecidableEq

structure Breakpoint where
  ID : Int
  State : String
deriving DecidableEq

structure Features where
  Supports_async : Bool
  Language_name : String
deriving DecidableEq

structure InitResponse where
  AppID : String
  IDeKey : String
  Session : String
  Thread : String
  Parent : String
  Language : String
  FileURI : String
deriving DecidableEq

/-! ### Go standard-library string helpers used by the sources -/

/-- strings.Replace(s, pat, rep, 1) on char lists: replace the first
occurrence of pat (pat nonempty here). -/
def replaceFirstGo (pat rep : List Char) : List Char → List Char
  | [] => []
  | c :: t =>
    if (c :: t).take pat.length = pat then rep ++ (c :: t).drop pat.length
    else c :: replaceFirstGo pat rep t

/-- strings.Replace(s, pat, rep, 1); an empty pattern inserts rep once at the
front, as in Go. -/
def replaceFirst (s pat rep : String) : String :=
  if pat.toList = [] then String.mk (rep.toList ++ s.toList)
  else String.mk (replaceFirstGo pat.toList rep.toList s.toList)

/-- strings.Split(s, " ") on char lists: split at every space, keeping empty
fields; the result is always nonempty. -/
def goSplitSpace : List Char → List (List Char)
  | [] => [[]]
  | c :: t =>
    if c = ' ' then [] :: goSplitSpace t
    else
      match goSplitSpace t with
      | h :: r => (c :: h) :: r
      | [] => [[c]]

/-- strings.TrimSuffix on char lists. -/
def goTrimSuffix (l suf : List Char) : List Char :=
  if l.reverse.take suf.length = suf.reverse then l.take (l.length - suf.length)
  else l

/-- strings.TrimPrefix on char lists. -/
def goTrimPrefix (l pre : List Char) : List Char :=
  if l.take pre.length = pre then l.drop pre.length else l

/-- strings.Join with a separator. -/
def goJoin (sep : String) : List String → String
  | [] => ""
  | [s] => s
  | s :: t => s ++ sep ++ goJoin sep t

/-! ### strconv-style integer parsing (used by flag.Int and strconv.Atoi) -/

/-- Value of a digit character in bases up to 16. -/
def digitVal (c : Char) : Option Nat :=
  if '0' ≤ c ∧ c ≤ '9' then some (c.toNat - 48)
  else if 'a' ≤ c ∧ c ≤ 'f' then some (c.toNat - 87)
  else if 'A' ≤ c ∧ c ≤ 'F' then some (c.toNat - 55)
  else none

/-- Parse a nonempty digit string in the given base. -/
def parseNatBase (b : Nat) (cs : List Char) : Option Nat :=
  if cs = [] then none
  else
    cs.foldl
      (fun acc c =>
        acc.bind fun a => (digitVal c).bind fun d =>
          if d < b then some (a * b + d) else none)
      (some 0)

/-- strconv.ParseInt(s, 0, 64) as flag.Int uses it: optional sign, then the
base is inferred from a 0x/0b/0o/0 prefix, defaulting to decimal.
(Digit-separating underscores and 64-bit overflow are not modelled; no input
in this development uses them.) -/
def parseGoInt (s : String) : Option Int :=
  let l := s.toList
  let signed : Bool × List Char :=
    match l with
    | '-' :: t => (true, t)
    | '+' :: t => (false, t)
    | _ => (false, l)
  let pn : Option Nat :=
    match signed.2 with
    | '0' :: 'x' :: t => parseNatBase 16 t
    | '0' :: 'X' :: t => parseNatBase 16 t
    | '0' :: 'b' :: t => parseNatBase 2 t
    | '0' :: 'B' :: t => parseNatBase 2 t
    | '0' :: 'o' :: t => parseNatBase 8 t
    | '0' :: 'O' :: t => parseNatBase 8 t
    | '0' :: c :: t => parseNatBase 8 (c :: t)
    | '0' :: [] => some 0
    | rest => parseNatBase 10 rest
  pn.map fun n => if signed.1 then -(n : Int) else (n : Int)

/-- strconv.Atoi: decimal only, optional sign. -/
def Atoi (s : String) : Except String Int :=
  let l := s.toList
  let signed : Bool × List Char :=
    match l with
    | '-' :: t => (true, t)
    | '+' :: t => (false, t)
    | _ => (false, l)
  match parseNatBase 10 signed.2 with
  | some n => .ok (if signed.1 then -(n : Int) else (n : Int))
  | none => .error "invalid syntax"

/-! ### encoding/base64 StdEncoding (used by the source command) -/

def base64Table : List Char :=
  "ABCDEFGHIJKLMNOPQRSTUVWXYZabcdefghijklmnopqrstuvwxyz0123456789+/".toList

def b64char (n : Nat) : Char := base64Table.getD n 'A'

/-- base64.StdEncoding.EncodeToString over a byte list. -/
def base64Encode : List Nat → String
  | [] => ""
  | [a] =>
    let a := a % 256
    String.mk [b64char (a / 4), b64char (a % 4 * 16)] ++ "=="
  | [a, b] =>
    let a := a % 256
    let b := b % 256
    String.mk [b64char (a / 4), b64char (a % 4 * 16 + b / 16), b64char (b % 16 * 4)] ++ "="
  | a :: b :: c :: rest =>
    let a := a % 256
    let b := b % 256
    let c := c % 256
    String.mk [b64char (a / 4), b64char (a % 4 * 16 + b / 16),
      b64char (b % 16 * 4 + c / 64), b64char (c % 64)] ++ base64Encode rest

/-! ### flag.FlagSet as conn.go registers it: -i -d -f -c, ContinueOnError.

The flag variables are registered once before the read loop, so their values
persist from one command to the next; parsing starts from the previous
values. -/

structure FlagVals where
  i : Int
  d : Int
  f : String
  c : Int
deriving DecidableEq

/-- The registered defaults: Int flags default to 0, the String flag to "". -/
def flagDefaults : FlagVals := ⟨0, 0, "", 0⟩

/-- Assign one named flag from its string value; none models the parse error
(undefined flag or malformed integer), on which ContinueOnError stops. -/
def setFlag (fl : FlagVals) (name val : String) : Option FlagVals :=
  match name with
  | "i" => (parseGoInt val).map fun n => { fl with i := n }
  | "d" => (parseGoInt val).map fun n => { fl with d := n }
  | "c" => (parseGoInt val).map fun n => { fl with c := n }
  | "f" => some { fl with f := val }
  | _ => none

/-- What one flag token contributes: stop parsing (non-flag token, bare
"--", syntax error or bad value), an inline "-name=value" assignment, or a
flag name still needing the next token as its value. -/
inductive FlagStep where
  | stop
  | setInline (fl2 : FlagVals)
  | needValue (name : String)

/-- Handle a flag token whose leading dashes were stripped.  A name starting
with a dash or equals sign is a syntax error. -/
def flagNameval (fl : FlagVals) (nameval : List Char) : FlagStep :=
  match nameval with
  | [] => .stop
  | c :: _ =>
    if c = '-' ∨ c = '=' then .stop
    else
      let name := String.mk (nameval.takeWhile fun ch => ch ≠ '=')
      let eqPart := nameval.dropWhile fun ch => ch ≠ '='
      if eqPart = [] then .needValue name
      else
        match setFlag fl name (String.mk (eqPart.drop 1)) with
        | some fl2 => .setInline fl2
        | none => .stop

/-- Classify one token: flags carry one or two leading dashes; a bare "--"
terminates parsing, as does the first non-flag token. -/
def flagToken (fl : FlagVals) (tok : String) : FlagStep :=
  match tok.toList with
  | '-' :: '-' :: [] => .stop
  | '-' :: '-' :: c :: cs => flagNameval fl (c :: cs)
  | '-' :: c :: cs => flagNameval fl (c :: cs)
  | _ => .stop

/-- flag.FlagSet.Parse with ContinueOnError: process "-name value" and
"-name=value" tokens left to right; stop at the first non-flag token, at a
bare "--", or at any parse error (values set before the error persist). -/
def parseFlags (fl : FlagVals) : List String → FlagVals
  | [] => fl
  | tok :: rest =>
    match flagToken fl tok with
    | .stop => fl
    | .setInline fl2 => parseFlags fl2 rest
    | .needValue name =>
      match rest with
      | [] => fl
      | v :: rest2 =>
        match setFlag fl name v with
        | some fl2 => parseFlags fl2 rest2
        | none => fl

/-! ### Response encoding (conn.go writeResponse / writeError)

writeResponse assembles a Go map of attributes and renders it with the
payload into the response element; since Go map iteration order is
nondeterministic, the envelope is modelled structurally, with map
assignment as overwrite-insert into an association list. -/

/-- Go map assignment m[k] = v. -/
def mapInsert (m : List (String × String)) (k v : String) : List (String × String) :=
  (k, v) :: m.filter fun kv => kv.1 ≠ k

/-- The payload handed to writeResponse (a Go interface value). -/
inductive Payload where
  | nothing
  | errorElem (e : dbgpError)
  | stacks (l : List Stack)
  | contexts (l : List Context)
  | properties (l : List Property)
  | raw (s : String)
deriving DecidableEq

/-- The response envelope: its attribute map and payload.  payloadRaw records
whether the payload bytes are pre-escaped (the source command) or marshalled
from the typed record. -/
structure Envelope where
  attrs : List (String × String)
  payload : Payload
  payloadRaw : Bool
deriving DecidableEq

/-- conn.go writeResponse: copy the caller's attributes, then set command,
transaction_id and xmlns (attribute values are rendered with fmt.Sprint). -/
def writeResponse (cmd : String) (txId : Int) (attrs : List (String × String))
    (payload : Payload) (payloadRaw : Bool) : Envelope :=
  let a1 := mapInsert attrs "command" cmd
  let a2 := mapInsert a1 "transaction_id" (toString txId)
  let a3 := mapInsert a2 "xmlns" "urn:debugger_protocol_v1"
  ⟨a3, payload, payloadRaw⟩

/-- conn.go writeError: any error that is not a dbgpError is wrapped as
dbgpError{999, err.Error()}; the result is rendered as an error payload
through writeResponse. -/
def writeError (cmd : String) (txId : Int) (err : GoError) : Envelope :=
  let e : dbgpError :=
    match err with
    | .dbgp e => e
    | .other _ => ⟨999, err.errorString⟩
  writeResponse cmd txId [] (.errorElem e) false

/-! ### The dispatcher (conn.go Run loop body) -/

/-- The DBGPClient capability values observed by one dispatched command (the
interface conn.go is written against; each field is the value the backend
call returns). -/
structure DBGPClient where
  stepInto : String × String
  stackDepth : Int
  stackGet : Int → List Stack
  contextNames : Int → List Context
  contextGet : Int → Int → List Property

/-- One iteration of the Run loop after a command line was read: parse the
flags from parts[1:], switch on parts[0], and build the response or error
envelope.  files models os.Open + ReadAll for the source command (none is an
open/read failure, which the source logs and then breaks out of the switch
with a nil payload and no error). -/
def runIteration (client : DBGPClient) (files : String → Option (List Nat))
    (fl : FlagVals) (parts : List String) : Envelope × FlagVals :=
  let fl2 := parseFlags fl parts.tail
  let cmd := parts.headD ""
  match cmd with
  | "step_into" =>
    (writeResponse cmd fl2.i
      (mapInsert (mapInsert [] "status" client.stepInto.1) "reason" client.stepInto.2)
      .nothing false, fl2)
  | "stack_depth" =>
    (writeResponse cmd fl2.i (mapInsert [] "depth" (toString client.stackDepth))
      .nothing false, fl2)
  | "source" =>
    let fn := replaceFirst fl2.f "file://" ""
    match files fn with
    | none => (writeResponse cmd fl2.i [] .nothing false, fl2)
    | some bytes =>
      (writeResponse cmd fl2.i (mapInsert [] "encoding" "base64")
        (.raw ("<![CDATA[" ++ base64Encode bytes ++ "]]>")) true, fl2)
  | "stack_get" =>
    (writeResponse cmd fl2.i [] (.stacks (client.stackGet fl2.d)) false, fl2)
  | "context_names" =>
    (writeResponse cmd fl2.i [] (.contexts (client.contextNames fl2.d)) false, fl2)
  | "context_get" =>
    (writeResponse cmd fl2.i [] (.properties (client.contextGet fl2.d fl2.c)) false, fl2)
  | _ => (writeError cmd fl2.i (.dbgp ErrUnimplemented), fl2)

/-! ### Reading a command (conn.go next) and one full loop step -/

inductive IOErr where
  | eof
deriving DecidableEq

def IOErr.errorString : IOErr → String
  | .eof => "EOF"

def nulChar : Char := Char.ofNat 0

/-- bufio ReadString(0): read up to and including the next NUL byte; if the
stream ends first (the peer closed), the data read so far is returned with
io.EOF. -/
def readStringNul (s : List Char) : Except IOErr (List Char × List Char) :=
  let pre := s.takeWhile fun c => c ≠ nulChar
  let post := s.drop pre.length
  match post with
  | [] => .error .eof
  | _ :: rest => .ok (pre ++ [nulChar], rest)

/-- conn.go next: read one NUL-terminated command, strip the terminator and
split on spaces.  An error from the read (io.EOF on clean close) is returned
as an error, with a nil parts slice. -/
def next (s : List Char) : Except IOErr (List String) × List Char :=
  match readStringNul s with
  | .error e => (.error e, [])
  | .ok (raw, rest) => (.ok ((goSplitSpace (goTrimSuffix raw [nulChar])).map String.mk), rest)

/-- Outcome of one pass of the Run loop.  panicked models the Go runtime
panic that aborts the process; it carries the envelopes written before the
panic. -/
inductive StepOutcome where
  | panicked (emitted : List Envelope)
  | stepped (env : Envelope) (fl : FlagVals) (rest : List Char)
deriving DecidableEq

/-- One pass of conn.go Run: read a command with next.  On a read error the
code calls writeError("unknown", *txId, err) and then — without returning —
evaluates parts[0] on the nil slice, which panics.  On success the command
is dispatched. -/
def runStep (client : DBGPClient) (files : String → Option (List Nat))
    (fl : FlagVals) (s : List Char) : StepOutcome :=
  match next s with
  | (.error e, _) => .panicked [writeError "unknown" fl.i (.other (IOErr.errorString e))]
  | (.ok parts, rest) =>
    let r := runIteration client files fl parts
    .stepped r.1 r.2 rest

/-! ### Message framing (conn.go sendBytes) -/

/-- fmt.Sprint of a nonnegative integer, as ASCII byte values. -/
def decRepr (n : Nat) : List Nat :=
  if n = 0 then [48] else ((Nat.digits 10 n).map fun d => d + 48).reverse

/-- conn.go sendBytes: the exact byte sequence written for payload b —
ASCII decimal length, NUL, payload, NUL. -/
def sendBytes (b : List Nat) : List Nat :=
  decRepr b.length ++ [0] ++ b ++ [0]

/-- Fold ASCII decimal digits to their value. -/
def parseDecDigits (ds : List Nat) : Nat :=
  ds.foldl (fun a d => a * 10 + (d - 48)) 0

/-- Modelled from the spec: the repository has no inbound decoder for the
length-prefixed framing (conn.go only encodes with sendBytes); decodeMessage
follows the spec's framing rules — read the decimal length up to the NUL,
read exactly that many payload bytes, verify the trailing NUL. -/
def decodeMessage (msg : List Nat) : Option (List Nat) :=
  let digits := msg.takeWhile fun x => x ≠ 0
  if digits = [] then none
  else
    match msg.drop digits.length with
    | 0 :: body =>
      let n := parseDecDigits digits
      if body.length < n then none
      else
        match body.drop n with
        | 0 :: _ => some (body.take n)
        | _ => none
    | _ => none

/-- Whether a payload is the error element, i.e. the envelope is an error
envelope. -/
def isErrorPayload : Payload → Bool
  | .errorElem _ => true
  | _ => false

/-- A concrete backend, used by the closed instances of the dispatcher
theorems. -/
def defClient : DBGPClient :=
  ⟨("break", "ok"), 2, fun _ => [], fun _ => [], fun _ _ => []⟩

/-- A file reader with no files. -/
def defFiles : String → Option (List Nat) := fun _ => none

end Dbgp

namespace Gdbproxy

/-! ### A leftmost-first regex engine for the fixed patterns of gdbproxy.go

Go's regexp (non-POSIX) returns the match a backtracking search would find
first: the leftmost starting position, and among matches there the one
following greedy preference order.  The engine below implements exactly that
for the fragment the five patterns of gdbproxy.go use: literals, single
characters, greedy one-or-more of a character class (optionally capturing),
an optional character, and an optional capturing one-or-more. -/

inductive CharClass where
  | any
  | digit
  | chr (c : Char)
deriving DecidableEq

/-- Class membership; an unflagged dot does not match a newline. -/
def inClass : CharClass → Char → Bool
  | .any, c => c ≠ '\n'
  | .digit, c => 48 ≤ c.toNat && c.toNat ≤ 57
  | .chr c0, c => c = c0

inductive RFrag where
  | lit (l : List Char)
  | one (c : CharClass)
  | plus (c : CharClass) (g : Option Nat)
  | opt (c : CharClass)
  | optPlus (c : CharClass) (g : Nat)
deriving DecidableEq

def capLookup (caps : List (Nat × List Char)) (i : Nat) : Option (List Char) :=
  (caps.find? fun p => p.1 = i).map fun p => p.2

def addCap (g : Option Nat) (pre : List Char) (caps : List (Nat × List Char)) :
    List (Nat × List Char) :=
  match g with
  | some i => (i, pre) :: caps
  | none => caps

/-- Greedy candidate splits for one-or-more of a class: every nonempty prefix
of the maximal run, longest first, paired with the remaining input. -/
def candList (c : CharClass) (s : List Char) : List (List Char × List Char) :=
  let run := s.takeWhile (inClass c)
  let t := s.drop run.length
  (List.range run.length).reverse.map fun k => (run.take (k + 1), run.drop (k + 1) ++ t)

/-- Match a fragment list at the start of the input, in backtracking
preference order; returns the remaining input and captures of the first
match found. -/
def matchFrags : List RFrag → List Char → List (Nat × List Char) →
    Option (List Char × List (Nat × List Char))
  | [], s, caps => some (s, caps)
  | .lit l :: fs, s, caps =>
    if s.take l.length = l then matchFrags fs (s.drop l.length) caps else none
  | .one c :: fs, s, caps =>
    match s with
    | [] => none
    | a :: t => if inClass c a then matchFrags fs t caps else none
  | .plus c g :: fs, s, caps =>
    (candList c s).findSome? fun pr => matchFrags fs pr.2 (addCap g pr.1 caps)
  | .opt c :: fs, s, caps =>
    match s with
    | a :: t =>
      if inClass c a then (matchFrags fs t caps).orElse fun _ => matchFrags fs s caps
      else matchFrags fs s caps
    | [] => matchFrags fs [] caps
  | .optPlus c g :: fs, s, caps =>
    ((candList c s).findSome? fun pr => matchFrags fs pr.2 (addCap (some g) pr.1 caps)).orElse
      fun _ => matchFrags fs s caps

/-- Scan start positions left to right and return the first position's match:
the matched substring and its captures. -/
def findFrom (p : List RFrag) : List Char → Option (List Char × List (Nat × List Char))
  | [] =>
    match matchFrags p [] [] with
    | some (_, caps) => some ([], caps)
    | none => none
  | a :: t =>
    match matchFrags p (a :: t) [] with
    | some (rest, caps) => some ((a :: t).take ((a :: t).length - rest.length), caps)
    | none => findFrom p t

/-- A compiled pattern: fragments plus the number of capture groups
(NumSubexp). -/
structure Pattern where
  frags : List RFrag
  ng : Nat
deriving DecidableEq

/-- regexp FindStringSubmatch: nil (here []) when there is no match;
otherwise the full match followed by one entry per group, "" for groups that
did not participate. -/
def FindStringSubmatch (p : Pattern) (s : String) : List String :=
  match findFrom p.frags s.toList with
  | none => []
  | some (matched, caps) =>
    String.mk matched :: (List.range p.ng).map fun i => String.mk ((capLookup caps (i + 1)).getD [])

/-- The pattern "(.+) = (.+) ?(.+)?" used by ContextGet. -/
def ctxRe : Pattern :=
  ⟨[.plus .any (some 1), .lit (" = ".toList), .plus .any (some 2),
    .opt (.chr ' '), .optPlus .any 3], 3⟩

/-- The pattern "Breakpoint ([0-9]+) " used by BreakpointSet. -/
def bpRe : Pattern :=
  ⟨[.lit ("Breakpoint ".toList), .plus .digit (some 1), .lit [' ']], 1⟩

/-- The pattern "\$[0-9]+ = (.+)" used by PropertyGet. -/
def propRe : Pattern :=
  ⟨[.lit ['$'], .plus .digit none, .lit (" = ".toList), .plus .any (some 1)], 1⟩

/-- The pattern "Current source file is (.+)". -/
def srcFileRe : Pattern :=
  ⟨[.lit ("Current source file is ".toList), .plus .any (some 1)], 1⟩

/-- The pattern "Source language is (.+)." (the final dot is an unescaped
any-character). -/
def srcLangRe : Pattern :=
  ⟨[.lit ("Source language is ".toList), .plus .any (some 1), .one .any], 1⟩

/-- The pattern "at (.+):([0-9]+)" used by currentLineNumber. -/
def whereRe : Pattern :=
  ⟨[.lit ("at ".toList), .plus .any (some 1), .lit [':'], .plus .digit (some 2)], 2⟩

/-! ### gdbproxy reExtract -/

/-- The loop of reExtract: for each requested group index, fail with
"not enough matches" when the index exceeds len(matches)-1 (Go int
arithmetic, hence the Int comparison), otherwise append matches[mg].  The
none outcome models the index panic Go would raise were the bound check
wrong; it is proved unreachable below. -/
def reExtractLoop (ms : List String) : List Nat → List String →
    Option (Except String (List String))
  | [], acc => some (.ok acc)
  | mg :: rest, acc =>
    if (mg : Int) > (ms.length : Int) - 1 then some (.error "not enough matches")
    else
      match ms.get? mg with
      | some x => reExtractLoop ms rest (acc ++ [x])
      | none => none

/-- reExtract with the panic outcome exposed. -/
def reExtractRun (p : Pattern) (target : String) (matchGroup : List Nat) :
    Option (Except String (List String)) :=
  reExtractLoop (FindStringSubmatch p target) matchGroup []

/-- gdbproxy reExtract; the default is unreachable (see the safety theorem
for reExtractRun). -/
def reExtract (p : Pattern) (target : String) (matchGroup : List Nat) :
    Except String (List String) :=
  (reExtractRun p target matchGroup).getD (.error "index out of range")

/-! ### The GDB adapter state

The child process's stdout channel is modelled as the queue of line batches
the quiescence collector returns, one batch per consumeLines call (the timed
behaviour of consumeLines itself is modelled separately below).  sent
records every command string pushed onto the stdin channel, in order. -/

structure GDB where
  status : String
  ideKey : String
  session : String
  features : Dbgp.Features
  sent : List String
  console : List (List String)
deriving DecidableEq

/-- The idle window: 100 ms (defaultWait = 100 * time.Millisecond). -/
def defaultWait : Nat := 100

/-- One event on the collector's channels: an output line or an out-of-band
reader error. -/
inductive Event where
  | line (s : String)
  | errEvent (e : String)
deriving DecidableEq

/-- gdbproxy consumeLines over the timed trace of channel events.  Each
entry carries the delay in ms since the previous event was received (for the
first, since collection began).  A line arriving strictly within maxWait is
appended and the idle timer restarts; a reader error is logged and skipped
(also restarting the timer, as the select loop re-arms time.After); once no
event arrives within maxWait the accumulated lines are returned, the pending
event keeping its residual delay. -/
def consumeLines (maxWait : Nat) : List (Nat × Event) → List String × List (Nat × Event)
  | [] => ([], [])
  | (d, ev) :: rest =>
    if d < maxWait then
      match ev with
      | .line s =>
        let r := consumeLines maxWait rest
        (s :: r.1, r.2)
      | .errEvent _ => consumeLines maxWait rest
    else ([], (d - maxWait, ev) :: rest)

/-- Pop the next quiescence batch from the modelled stdout channel (one
consumeLines call, as in Init's header read). -/
def popBatch (g : GDB) : List String × GDB :=
  (g.console.headD [], { g with console := g.console.tail })

/-- Push one command string onto the stdin channel. -/
def send (g : GDB) (s : String) : GDB := { g with sent := g.sent ++ [s] }

/-- gdbproxy stdoutLines: collect one batch and strip the first "(gdb) "
occurrence from each line. -/
def stdoutLines (g : GDB) : List String × GDB :=
  let r := popBatch g
  (r.1.map fun l => Dbgp.replaceFirst l "(gdb) " "", r.2)

/-- gdbproxy New: spawn gdb on the target and start the pump goroutines; the
resulting record starts in status "starting" with empty features.  The
console parameter stands for the output the spawned process will produce. -/
def New (_target ideKey session : String) (console : List (List String)) : GDB :=
  { status := "starting", ideKey := ideKey, session := session,
    features := ⟨false, ""⟩, sent := [], console := console }

/-- The private start sequence: set the initial breakpoint, issue run, move
to "break" (the trailing stdoutLines is the logging call's argument, always
evaluated). -/
def GDB.start (g : GDB) : GDB :=
  let g1 := send (send g "b 1") "run"
  let g2 := { g1 with status := "break" }
  (stdoutLines g2).2

def GDB.StepInto (g : GDB) : (String × String) × GDB :=
  let g1 := if g.status = "starting" then g.start else g
  let g2 := send g1 "s"
  (("break", "ok"), (stdoutLines g2).2)

def GDB.StepOver (g : GDB) : (String × String) × GDB :=
  let g1 := if g.status = "starting" then g.start else g
  let g2 := send g1 "n"
  (("break", "ok"), (stdoutLines g2).2)

def GDB.Status (g : GDB) : String := g.status

def GDB.Features (g : GDB) : Dbgp.Features := g.features

def GDB.StackDepth (_g : GDB) : Int := 2

/-- gdbproxy getType: ptype the symbol, then strip the known console
decoration from the first output line. -/
def GDB.getType (g : GDB) (symbol : String) : String × GDB :=
  let g1 := send g ("ptype " ++ symbol)
  let r := stdoutLines g1
  match r.1 with
  | [] => ("unknown", r.2)
  | ti :: _ =>
    let t1 := Dbgp.replaceFirst ti "type = struct " ""
    (Dbgp.replaceFirst t1 " \x7b" "", r.2)

/-- gdbproxy currentFilenameAndLang: list 1, discard, info source, then
extract the file name and language (which are the zero strings when
extraction fails, as Go's named returns leave them). -/
def GDB.currentFilenameAndLang (g : GDB) : Except String (String × String) × GDB :=
  let g1 := send g "list 1"
  let g2 := (stdoutLines g1).2
  let g3 := send g2 "info source"
  let r := stdoutLines g3
  let info := Dbgp.goJoin "\n" r.1
  match reExtract srcFileRe info [1] with
  | .error e => (.error e, r.2)
  | .ok fm =>
    match reExtract srcLangRe info [1] with
    | .error e => (.error e, r.2)
    | .ok lm => (.ok (fm.headD "", lm.headD ""), r.2)

/-- fmt.Sprint of a string slice. -/
def sprintStrings (l : List String) : String := "[" ++ Dbgp.goJoin " " l ++ "]"

/-- gdbproxy currentLineNumber: where, then scan for "at FILE:LINE". -/
def GDB.currentLineNumber (g : GDB) : Except String Int × GDB :=
  let g1 := send g "where"
  let r := stdoutLines g1
  let parts := Dbgp.goJoin "\n" r.1
  let ms := FindStringSubmatch whereRe parts
  if ms.length ≠ 3 then
    (.error ("unexpected match length, expected 3: " ++ sprintStrings ms), r.2)
  else
    (Dbgp.Atoi (ms.getD 2 ""), r.2)

def GDB.StackGet (g : GDB) (_depth : Int) : Except String (List Dbgp.Stack) × GDB :=
  let r1 := g.currentFilenameAndLang
  match r1.1 with
  | .error e => (.error e, r1.2)
  | .ok fl =>
    let r2 := r1.2.currentLineNumber
    match r2.1 with
    | .error e => (.error e, r2.2)
    | .ok line => (.ok [⟨0, "file", "file://" ++ fl.1, line, "\x7bmain\x7d"⟩], r2.2)

def GDB.ContextNames (g : GDB) (_depth : Int) : Except String (List Dbgp.Context) × GDB :=
  (.ok [⟨"Local", 0⟩], g)

/-- The loop body of ContextGet: one Property per console line, with a
type-introspection call per extracted name; an extraction failure fails the
whole call at that point. -/
def contextGetLoop : GDB → List String → List Dbgp.Property →
    Except String (List Dbgp.Property) × GDB
  | g, [], acc => (.ok acc, g)
  | g, l :: rest, acc =>
    match reExtract ctxRe l [1, 2] with
    | .error e => (.error e, g)
    | .ok vals =>
      let name := vals.getD 0 ""
      let address := vals.getD 1 ""
      let tr := g.getType name
      contextGetLoop tr.2 rest (acc ++ [⟨name, name, address, tr.1⟩])

/-- gdbproxy ContextGet: info locals then info args, then parse each line
as NAME = VALUE. -/
def GDB.ContextGet (g : GDB) (_depth _context : Int) :
    Except String (List Dbgp.Property) × GDB :=
  let g1 := send g "info locals"
  let r1 := stdoutLines g1
  let g2 := send r1.2 "info args"
  let r2 := stdoutLines g2
  contextGetLoop r2.2 (r1.1 ++ r2.1) []

/-- gdbproxy PropertyGet: p name, then scan the first line for the value.
When reExtract fails, Go evaluates vals[0] on a nil slice — the none outcome
models that panic. -/
def GDB.PropertyGet (g : GDB) (_depth _context : Int) (name : String) :
    Option (String × Option String) × GDB :=
  let g1 := send g ("p " ++ name)
  let r := stdoutLines g1
  match r.1 with
  | [] => (some ("", some "No output produced."), r.2)
  | l :: _ =>
    match reExtract propRe l [1] with
    | .ok vals => (some (vals.getD 0 "", none), r.2)
    | .error _ => (none, r.2)

/-- Strips "file://" from the beginning of a string. -/
def stripAbsFilePrefix (lineNumber : String) : String :=
  String.mk (Dbgp.goTrimPrefix lineNumber.toList "file://".toList)

/-- gdbproxy BreakpointSet: any kind other than "line" is rejected before
any console interaction; otherwise a pending breakpoint is set and the
assigned id recovered from the reply. -/
def GDB.BreakpointSet (g : GDB) (bpType fileName : String) (lineNumber : Int) :
    (Dbgp.Breakpoint × Option String) × GDB :=
  if bpType ≠ "line" then ((⟨0, ""⟩, some "only line breakpoints are supported."), g)
  else
    let cmd := "b " ++ ( stripAbsFilePrefix fileName) ++ ":" ++ toString lineNumber
    let g1 := send g "set breakpoint pending on"
    let g2 := send g1 cmd
    let r := stdoutLines g2
    match reExtract bpRe (Dbgp.goJoin "\n" r.1) [1] with
    | .error e => ((⟨0, ""⟩, some e), r.2)
    | .ok ms =>
      match Dbgp.Atoi (ms.getD 0 "") with
      | .ok n => ((⟨n, "enabled"⟩, none), r.2)
      | .error e => ((⟨0, "enabled"⟩, some e), r.2)

/-- gdbproxy Init: consume the gdb header, obtain file and language (zero
strings on failure, which Init ignores), record the language in features. -/
def GDB.Init (g : GDB) : Dbgp.InitResponse × GDB :=
  let g1 := (popBatch g).2
  let r := g1.currentFilenameAndLang
  let fl := match r.1 with
    | .ok v => v
    | .error _ => ("", "")
  let g2 := { r.2 with features := { r.2.features with Language_name := fl.2 } }
  (⟨"gdbproxy", g.ideKey, g.session, "1", "", fl.2, "file://" ++ fl.1⟩, g2)

/-- Every operation of the adapter (the DBGPClient methods gdbproxy
implements), for stating state-machine invariants. -/
inductive GDBOp where
  | initOp
  | statusOp
  | featuresOp
  | stepIntoOp
  | stepOverOp
  | stackDepthOp
  | stackGetOp (d : Int)
  | contextNamesOp (d : Int)
  | contextGetOp (d c : Int)
  | propertyGetOp (d c : Int) (n : String)
  | breakpointSetOp (t f : String) (n : Int)
deriving DecidableEq

/-- The state reached after one adapter operation. -/
def applyOp (op : GDBOp) (g : GDB) : GDB :=
  match op with
  | .initOp => g.Init.2
  | .statusOp => g
  | .featuresOp => g
  | .stepIntoOp => g.StepInto.2
  | .stepOverOp => g.StepOver.2
  | .stackDepthOp => g
  | .stackGetOp d => (g.StackGet d).2
  | .contextNamesOp d => (g.ContextNames d).2
  | .contextGetOp d c => (g.ContextGet d c).2
  | .propertyGetOp d c n => (g.PropertyGet d c n).2
  | .breakpointSetOp t f n => (g.BreakpointSet t f n).2

/-- The console behaviour fixed by the ContextGet scenario: the locals
listing produces two lines, the args listing none, and the two follow-up
ptype lookups produce one line each. -/
def c9Console : List (List String) :=
  [["x = 0x1 ", "y = 0x2 "], [], ["type = int"], ["type = char"]]

/-- An adapter state (past start-up) whose console produces c9Console. -/
def c9State : GDB := ⟨"break", "ik", "ses", ⟨false, ""⟩, [], c9Console⟩

end Gdbproxy

/-! ## Theorems -/

open Dbgp Gdbproxy

/-! ### Framing (C7) -/

theorem foldl_mul_add_reverse (L : List Nat) (acc : Nat) :
    L.reverse.foldl (fun a d => a * 10 + d) acc = acc * 10 ^ L.length + Nat.ofDigits 10 L := by
  induction L generalizing acc with
  | nil => simp [Nat.ofDigits_nil]
  | cons d T ih =>
    simp only [List.reverse_cons, List.foldl_append, List.foldl_cons, List.foldl_nil, ih,
      Nat.ofDigits_cons, List.length_cons, pow_succ]
    ring

theorem parseDecDigits_decRepr (n : Nat) : parseDecDigits (decRepr n) = n := by
  unfold decRepr parseDecDigits
  split
  · simp_all
  · rename_i hn
    rw [← List.map_reverse, List.foldl_map]
    have hfn : (fun (a : Nat) (d : Nat) => a * 10 + (d + 48 - 48)) =
        fun (a : Nat) (d : Nat) => a * 10 + d := by
      funext a d
      omega
    rw [hfn, foldl_mul_add_reverse]
    simp [Nat.ofDigits_digits]

theorem decRepr_ne_zero (n : Nat) : ∀ x ∈ decRepr n, x ≠ 0 := by
  intro x hx
  unfold decRepr at hx
  split at hx
  · simp at hx
    omega
  · rw [List.mem_reverse, List.mem_map] at hx
    obtain ⟨d, _, rfl⟩ := hx
    omega

theorem decRepr_ne_nil (n : Nat) : decRepr n ≠ [] := by
  unfold decRepr
  split
  · simp
  · rename_i hn
    simp [Nat.digits_ne_nil_iff_ne_zero, hn]

theorem takeWhile_all_cons_false (p : Nat → Bool) (l : List Nat) (y : Nat) (r : List Nat)
    (hl : ∀ x ∈ l, p x = true) (hy : p y = false) :
    (l ++ y :: r).takeWhile p = l := by
  induction l with
  | nil => simp [List.takeWhile_cons, hy]
  | cons a t ih =>
    simp [List.takeWhile_cons, hl a (List.mem_cons_self a t),
      ih fun x hx => hl x (List.mem_cons_of_mem a hx)]

/-- C7: framing round-trip.  Encoding a payload with sendBytes (ASCII decimal
length, NUL, payload, NUL) and decoding per the framing rules yields the
original payload, and the length field parses to exactly the payload's byte
count.  (The NUL-free hypothesis of the claim is stated but not needed: the
decoder reads exactly the announced number of payload bytes.) -/
theorem sendBytes_decodeMessage_roundtrip (b : List Nat) (_hnul : 0 ∉ b) :
    decodeMessage (sendBytes b) = some b ∧
    parseDecDigits ((sendBytes b).takeWhile fun x => x ≠ 0) = b.length := by
  have hb : sendBytes b = decRepr b.length ++ 0 :: (b ++ [0]) := by
    simp [sendBytes]
  have hall : ∀ x ∈ decRepr b.length, (decide (x ≠ 0)) = true := by
    intro x hx
    simp only [decide_eq_true_eq]
    exact decRepr_ne_zero b.length x hx
  have h0 : (decide ((0 : Nat) ≠ 0)) = false := by simp
  have htw : (sendBytes b).takeWhile (fun x => decide (x ≠ 0)) = decRepr b.length := by
    rw [hb]
    exact takeWhile_all_cons_false _ _ _ _ hall h0
  refine ⟨?_, ?_⟩
  · have hdrop : (sendBytes b).drop (decRepr b.length).length = 0 :: (b ++ [0]) := by
      rw [hb]
      exact List.drop_left _ _
    unfold decodeMessage
    rw [htw]
    rw [if_neg (decRepr_ne_nil b.length)]
    rw [hdrop, parseDecDigits_decRepr]
    simp [List.drop_left, List.take_left]
  · rw [htw, parseDecDigits_decRepr]

/-- C7 witness: the round-trip at the concrete NUL-free payload [104, 105]. -/
theorem sendBytes_decodeMessage_roundtrip_witness :
    (0 : Nat) ∉ ([104, 105] : List Nat) ∧ decodeMessage (sendBytes [104, 105]) = some [104, 105] :=
  ⟨by decide, (sendBytes_decodeMessage_roundtrip [104, 105] (by decide)).1⟩

/-! ### reExtract safety (C10) -/

theorem reExtractLoop_no_panic (ms : List String) (groups : List Nat) (acc : List String) :
    reExtractLoop ms groups acc ≠ none ∧
    ∀ l, reExtractLoop ms groups acc = some (.ok l) → l.length = acc.length + groups.length := by
  induction groups generalizing acc with
  | nil =>
    refine ⟨by simp [reExtractLoop], ?_⟩
    intro l h
    simp only [reExtractLoop, Option.some.injEq, Except.ok.injEq] at h
    simp [← h]
  | cons mg rest ih =>
    by_cases hmg : (mg : Int) > (ms.length : Int) - 1
    · refine ⟨by simp [reExtractLoop, hmg], ?_⟩
      intro l h
      simp [reExtractLoop, hmg] at h
    · have hlt : mg < ms.length := by omega
      obtain ⟨x, hx⟩ : ∃ x, ms[mg]? = some x := ⟨ms[mg], List.getElem?_eq_getElem hlt⟩
      have hred : reExtractLoop ms (mg :: rest) acc = reExtractLoop ms rest (acc ++ [x]) := by
        simp [reExtractLoop, hmg, hx]
      rw [hred]
      refine ⟨(ih (acc ++ [x])).1, ?_⟩
      intro l h
      have h2 := (ih (acc ++ [x])).2 l h
      have hlen : (acc ++ [x]).length = acc.length + 1 := by simp
      rw [hlen] at h2
      simp only [List.length_cons]
      omega

/-- C10: for every pattern, target string and list of requested group
indices, reExtract either returns exactly one extracted string per requested
index or returns an error; the index panic outcome (none) is unreachable, in
particular when the regex does not match at all (an empty submatch slice). -/
theorem reExtractRun_safe (p : Pattern) (target : String) (groups : List Nat) :
    reExtractRun p target groups ≠ none ∧
    ∀ l, reExtractRun p target groups = some (.ok l) → l.length = groups.length := by
  have h := reExtractLoop_no_panic (FindStringSubmatch p target) groups []
  refine ⟨h.1, fun l hl => ?_⟩
  have := h.2 l hl
  simpa using this

/-- C10 witness: reExtract at a concrete matching input and, through an
unmatchable pattern on the same input, at a concrete non-matching input. -/
theorem reExtractRun_safe_witness :
    (reExtractRun ctxRe "x = 0x1 " [1, 2] ≠ none ∧
      (["x", "0x1 "] : List String).length = ([1, 2] : List Nat).length) ∧
    reExtractRun bpRe "no breakpoint here" [1] ≠ none :=
  ⟨⟨(reExtractRun_safe ctxRe "x = 0x1 " [1, 2]).1,
    (reExtractRun_safe ctxRe "x = 0x1 " [1, 2]).2 ["x", "0x1 "] (by decide)⟩,
   (reExtractRun_safe bpRe "no breakpoint here" [1]).1⟩

/-! ### Error coercion (C5) -/

/-- C5: the error-response writer renders a dbgpError (in particular each of
the fixed-code protocol errors) with its code and message unchanged, and
renders any other error value as code 999 with its textual message preserved
verbatim in the error payload. -/
theorem writeError_coerces (cmd : String) (txId : Int) (err : GoError) :
    (∀ e, err = .dbgp e → (writeError cmd txId err).payload = .errorElem e) ∧
    (∀ m, err = .other m → (writeError cmd txId err).payload = .errorElem ⟨999, m⟩) := by
  constructor
  · rintro e rfl
    rfl
  · rintro m rfl
    rfl

/-- C5 witness: a fixed-code protocol error passes through unchanged; a
plain error is coerced to Internal(999) with its message. -/
theorem writeError_coerces_witness :
    (writeError "breakpoint_set" 7 (.dbgp ErrInvalidOpts)).payload = .errorElem ⟨3, "Invaild Options"⟩ ∧
    (writeError "status" 5 (.other "boom")).payload = .errorElem ⟨999, "boom"⟩ :=
  ⟨(writeError_coerces "breakpoint_set" 7 (.dbgp ErrInvalidOpts)).1 ErrInvalidOpts rfl,
   (writeError_coerces "status" 5 (.other "boom")).2 "boom" rfl⟩

/-! ### Envelope attributes (C6) -/

theorem lookup_filter_ne (m : List (String × String)) (k k' : String) (h : k' ≠ k) :
    (m.filter fun kv => kv.1 ≠ k).lookup k' = m.lookup k' := by
  induction m with
  | nil => rfl
  | cons a t ih =>
    obtain ⟨a1, a2⟩ := a
    simp only [decide_not] at ih
    by_cases ha : a1 = k
    · have hne2 : (k' == k) = false := by simp [h]
      simp [List.filter_cons, ha, List.lookup, hne2, decide_not, ih]
    · by_cases hk : k' = a1
      · simp [List.filter_cons, ha, List.lookup, hk, decide_not]
      · have hne : (k' == a1) = false := by simp [hk]
        simp [List.filter_cons, ha, List.lookup, hne, decide_not, ih]

theorem lookup_mapInsert_self (m : List (String × String)) (k v : String) :
    (mapInsert m k v).lookup k = some v := by
  simp [mapInsert, List.lookup]

theorem lookup_mapInsert_ne (m : List (String × String)) (k v k' : String) (h : k' ≠ k) :
    (mapInsert m k v).lookup k' = m.lookup k' := by
  have hne : (k' == k) = false := by simp [h]
  simp only [mapInsert, List.lookup, hne]
  exact lookup_filter_ne m k k' h

theorem writeResponse_attrs (cmd : String) (txId : Int) (attrs : List (String × String))
    (p : Payload) (r : Bool) :
    (writeResponse cmd txId attrs p r).attrs.lookup "transaction_id" = some (toString txId) ∧
    (writeResponse cmd txId attrs p r).attrs.lookup "command" = some cmd := by
  unfold writeResponse
  constructor
  · rw [lookup_mapInsert_ne _ _ _ _ (by decide)]
    exact lookup_mapInsert_self _ _ _
  · rw [lookup_mapInsert_ne _ _ _ _ (by decide), lookup_mapInsert_ne _ _ _ _ (by decide)]
    exact lookup_mapInsert_self _ _ _

/-- C6: whatever way a command is dispatched (success or error), the
envelope's transaction_id attribute is the rendering of the -i value the
flag parse produced for this command, and its command attribute is the
command's name (the first space-separated token). -/
theorem envelope_echoes_txid_and_command (client : DBGPClient)
    (files : String → Option (List Nat)) (fl : FlagVals) (cmd : String)
    (rest : List String) (txId : Int) (h : (parseFlags fl rest).i = txId) :
    (runIteration client files fl (cmd :: rest)).1.attrs.lookup "transaction_id" =
      some (toString txId) ∧
    (runIteration client files fl (cmd :: rest)).1.attrs.lookup "command" = some cmd := by
  subst h
  simp only [runIteration, List.tail_cons, List.headD_cons]
  constructor
  · split <;> first
      | exact (writeResponse_attrs _ _ _ _ _).1
      | (split <;> exact (writeResponse_attrs _ _ _ _ _).1)
  · split <;> first
      | exact (writeResponse_attrs _ _ _ _ _).2
      | (split <;> exact (writeResponse_attrs _ _ _ _ _).2)

/-- C6 witness: a concrete command "step_into -i 3". -/
theorem envelope_echoes_txid_and_command_witness :
    (parseFlags flagDefaults ["-i", "3"]).i = 3 ∧
    (runIteration defClient defFiles flagDefaults ["step_into", "-i", "3"]).1.attrs.lookup
      "transaction_id" = some (toString (3 : Int)) ∧
    (runIteration defClient defFiles flagDefaults ["step_into", "-i", "3"]).1.attrs.lookup
      "command" = some "step_into" :=
  ⟨by decide,
   (envelope_echoes_txid_and_command defClient defFiles flagDefaults "step_into" ["-i", "3"] 3
     (by decide)).1,
   (envelope_echoes_txid_and_command defClient defFiles flagDefaults "step_into" ["-i", "3"] 3
     (by decide)).2⟩

/-! ### Command dispatch (C1) -/

/-- C1 counterexample: "status" is one of the command names the claim lists
as routed to a handler, but the dispatcher of conn.go has no case for it:
dispatching "status -i 5" falls through to the default branch and produces
exactly the Unimplemented(4) error envelope that the claim reserves for
names outside the recognized set. -/
theorem dispatch_status_falls_through :
    (runIteration defClient defFiles flagDefaults ["status", "-i", "5"]).1 =
      writeError "status" 5 (.dbgp ErrUnimplemented) ∧
    (runIteration defClient defFiles flagDefaults ["status", "-i", "5"]).1.payload =
      .errorElem ⟨4, "Unimplemented"⟩ := by
  constructor <;> rfl

/-- C1 (amended): the dispatcher routes exactly the six commands step_into,
stack_depth, source, stack_get, context_names and context_get to handlers
(producing a non-error response envelope), and every other command name —
including status, step_over, property_get, feature_get and breakpoint_set —
produces an error envelope with code 4 (Unimplemented) whose transaction_id
attribute renders the -i value parsed from the command. -/
theorem dispatch_recognized_commands (client : DBGPClient)
    (files : String → Option (List Nat)) (fl : FlagVals) (cmd : String)
    (rest : List String) :
    (cmd ∈ (["step_into", "stack_depth", "source", "stack_get", "context_names",
        "context_get"] : List String) →
      isErrorPayload (runIteration client files fl (cmd :: rest)).1.payload = false) ∧
    (cmd ∉ (["step_into", "stack_depth", "source", "stack_get", "context_names",
        "context_get"] : List String) →
      (runIteration client files fl (cmd :: rest)).1.payload = .errorElem ErrUnimplemented ∧
      (runIteration client files fl (cmd :: rest)).1.attrs.lookup "transaction_id" =
        some (toString (parseFlags fl rest).i)) := by
  constructor
  · intro hmem
    simp only [List.mem_cons, List.not_mem_nil, or_false] at hmem
    simp only [runIteration, List.tail_cons, List.headD_cons]
    rcases hmem with rfl | rfl | rfl | rfl | rfl | rfl
    · rfl
    · rfl
    · simp only []
      split <;> rfl
    · rfl
    · rfl
    · rfl
  · intro hnot
    simp only [List.mem_cons, List.not_mem_nil, or_false, not_or] at hnot
    obtain ⟨h1, h2, h3, h4, h5, h6⟩ := hnot
    simp only [runIteration, List.tail_cons, List.headD_cons]
    exact ⟨rfl, (writeResponse_attrs _ _ _ _ _).1⟩

/-- C1 witness: the unrecognized command "frobnicate -i 1" yields the
Unimplemented(4) error envelope carrying transaction id 1, and the routed
command "step_into" yields a non-error envelope. -/
theorem dispatch_recognized_commands_witness :
    (("frobnicate" : String) ∉ (["step_into", "stack_depth", "source", "stack_get",
        "context_names", "context_get"] : List String) ∧
      (runIteration defClient defFiles flagDefaults ["frobnicate", "-i", "1"]).1.payload =
        .errorElem ErrUnimplemented ∧
      (runIteration defClient defFiles flagDefaults ["frobnicate", "-i", "1"]).1.attrs.lookup
        "transaction_id" = some (toString (parseFlags flagDefaults ["-i", "1"]).i)) ∧
    isErrorPayload (runIteration defClient defFiles flagDefaults
      ["step_into", "-i", "2"]).1.payload = false :=
  ⟨⟨by decide,
    (dispatch_recognized_commands defClient defFiles flagDefaults "frobnicate" ["-i", "1"]).2
      (by decide)⟩,
   (dispatch_recognized_commands defClient defFiles flagDefaults "step_into" ["-i", "2"]).1
     (by decide)⟩

/-! ### End-of-stream handling (C2) -/

/-- C2 (code bug): when the peer closes the stream cleanly, next() surfaces
io.EOF as an ordinary error — not as a distinguished outcome — and the Run
loop then calls writeError("unknown", ...) and evaluates parts[0] on the nil
parts slice, which panics and aborts the process instead of returning
cleanly to the caller. -/
theorem run_eof_panics :
    next ([] : List Char) = (.error .eof, []) ∧
    runStep defClient defFiles flagDefaults [] =
      .panicked [writeError "unknown" 0 (.other "EOF")] :=
  ⟨rfl, rfl⟩

/-! ### Quiescence collection (C3) -/

/-- C3: with the 100 ms idle window, an event trace of exactly three lines,
each arriving within 10 ms of the previous event, followed by 150 ms of
silence, makes one consumeLines call return exactly those three lines in
arrival order — the marker event after the silence is left unconsumed, so
the lines are delivered once and only once. -/
theorem consumeLines_quiescence (l1 l2 l3 : String) (d1 d2 d3 : Nat) (ev : Event)
    (h1 : d1 ≤ 10) (h2 : d2 ≤ 10) (h3 : d3 ≤ 10) :
    consumeLines defaultWait [(d1, .line l1), (d2, .line l2), (d3, .line l3), (150, ev)] =
      ([l1, l2, l3], [(50, ev)]) := by
  have e1 : d1 < 100 := by omega
  have e2 : d2 < 100 := by omega
  have e3 : d3 < 100 := by omega
  simp [consumeLines, defaultWait, e1, e2, e3]

/-- C3 witness: the trace at concrete 10 ms gaps. -/
theorem consumeLines_quiescence_witness :
    consumeLines defaultWait [(10, .line "a"), (10, .line "b"), (10, .line "c"),
      (150, .line "d")] = (["a", "b", "c"], [(50, .line "d")]) :=
  consumeLines_quiescence "a" "b" "c" 10 10 10 (.line "d") (by decide) (by decide) (by decide)

/-! ### BreakpointSet kind check (C8) -/

/-- C8: BreakpointSet with any kind other than "line" fails before any
console interaction: the returned state is exactly the input state (in
particular nothing was pushed to the stdin channel and no console batch was
consumed), the error is set, and the breakpoint record is the zero value. -/
theorem BreakpointSet_nonline_rejected (g : GDB) (t f : String) (n : Int) (h : t ≠ "line") :
    g.BreakpointSet t f n = ((⟨0, ""⟩, some "only line breakpoints are supported."), g) := by
  simp [GDB.BreakpointSet, h]

/-- C8 witness: BreakpointSet("watch", ...) on a concrete state. -/
theorem BreakpointSet_nonline_rejected_witness :
    ("watch" : String) ≠ "line" ∧
    (New "t" "ik" "ses" [["junk"]]).BreakpointSet "watch" "file:///a.c" 10 =
      ((⟨0, ""⟩, some "only line breakpoints are supported."), New "t" "ik" "ses" [["junk"]]) :=
  ⟨by decide,
   BreakpointSet_nonline_rejected (New "t" "ik" "ses" [["junk"]]) "watch" "file:///a.c" 10
     (by decide)⟩

/-! ### ContextGet parsing (C9) -/

/-- C9 counterexample: with the console producing exactly
["x = 0x1 ", "y = 0x2 "] for the locals listing and nothing for the args
listing, the two extracted address fields are "0x1 " and "0x2 " — each keeps
the trailing space of its console line, because the greedy second group of
"(.+) = (.+) ?(.+)?" swallows it — so the first property's address is not
"0x1" as the claim states. -/
theorem ContextGet_keeps_trailing_space :
    ((c9State.ContextGet 0 0).1.toOption.map fun l => l.map Dbgp.Property.Address) =
      some ["0x1 ", "0x2 "] ∧
    ("0x1 " : String) ≠ "0x1" := by
  constructor
  · decide
  · decide

/-- C9 (amended): on that console behaviour, ContextGet returns exactly two
Property entries, the first named "x" with address "0x1 " and the second
named "y" with address "0x2 " (the trailing space of each console line is
kept in the address field), and exactly one ptype type-introspection command
is issued per entry: the commands sent are info locals, info args, ptype x,
ptype y in that order. -/
theorem ContextGet_two_properties :
    (c9State.ContextGet 0 0).1 = .ok
      [⟨"x", "x", "0x1 ", "type = int"⟩, ⟨"y", "y", "0x2 ", "type = char"⟩] ∧
    (c9State.ContextGet 0 0).2.sent = ["info locals", "info args", "ptype x", "ptype y"] := by
  constructor
  · decide
  · decide

/-! ### Adapter state machine (C4) -/

theorem status_getType (g : GDB) (s : String) : (g.getType s).2.status = g.status := by
  simp only [GDB.getType]
  split <;> rfl

theorem status_currentFilenameAndLang (g : GDB) :
    g.currentFilenameAndLang.2.status = g.status := by
  simp only [GDB.currentFilenameAndLang]
  split
  · rfl
  · split <;> rfl

theorem status_currentLineNumber (g : GDB) : g.currentLineNumber.2.status = g.status := by
  simp only [GDB.currentLineNumber]
  split <;> rfl

theorem status_StackGet (g : GDB) (d : Int) : (g.StackGet d).2.status = g.status := by
  simp only [GDB.StackGet]
  split
  · exact status_currentFilenameAndLang g
  · split
    · rw [status_currentLineNumber, status_currentFilenameAndLang]
    · rw [status_currentLineNumber, status_currentFilenameAndLang]

theorem contextGetLoop_status (lines : List String) (g : GDB) (acc : List Dbgp.Property) :
    (contextGetLoop g lines acc).2.status = g.status := by
  induction lines generalizing g acc with
  | nil => rfl
  | cons l rest ih =>
    simp only [contextGetLoop]
    split
    · rfl
    · rw [ih, status_getType]

theorem status_ContextGet (g : GDB) (d c : Int) : (g.ContextGet d c).2.status = g.status := by
  simp only [GDB.ContextGet]
  rw [contextGetLoop_status]
  rfl

theorem status_PropertyGet (g : GDB) (d c : Int) (n : String) :
    (g.PropertyGet d c n).2.status = g.status := by
  simp only [GDB.PropertyGet]
  split
  · rfl
  · split <;> rfl

theorem status_BreakpointSet (g : GDB) (t f : String) (n : Int) :
    (g.BreakpointSet t f n).2.status = g.status := by
  simp only [GDB.BreakpointSet]
  split
  · rfl
  · split
    · rfl
    · split <;> rfl

theorem status_Init (g : GDB) : g.Init.2.status = g.status := by
  simp only [GDB.Init]
  exact status_currentFilenameAndLang _

theorem stepInto_status (g : GDB) :
    g.StepInto.2.status = if g.status = "starting" then "break" else g.status := by
  simp only [GDB.StepInto]
  split <;> rfl

theorem stepOver_status (g : GDB) :
    g.StepOver.2.status = if g.status = "starting" then "break" else g.status := by
  simp only [GDB.StepOver]
  split <;> rfl

theorem stepInto_sent_starting (g : GDB) (h : g.status = "starting") :
    g.StepInto.2.sent = g.sent ++ ["b 1", "run", "s"] := by
  simp [GDB.StepInto, GDB.start, h, send, stdoutLines, popBatch]

theorem stepOver_sent_starting (g : GDB) (h : g.status = "starting") :
    g.StepOver.2.sent = g.sent ++ ["b 1", "run", "n"] := by
  simp [GDB.StepOver, GDB.start, h, send, stdoutLines, popBatch]

/-- C4: the adapter state machine.  New produces status "starting"; a
StepInto (or StepOver) call in "starting" runs the private start sequence —
pushing "b 1" and "run" before the step command — and leaves status "break";
step calls made in "break" keep it there; and every adapter operation either
leaves the status unchanged or sets it to "break", so no operation ever
produces any other value. -/
theorem gdb_state_machine :
    (∀ target ik ses console, (New target ik ses console).status = "starting") ∧
    (∀ g : GDB, g.status = "starting" →
      (g.StepInto.2.status = "break" ∧ g.StepInto.2.sent = g.sent ++ ["b 1", "run", "s"]) ∧
      (g.StepOver.2.status = "break" ∧ g.StepOver.2.sent = g.sent ++ ["b 1", "run", "n"])) ∧
    (∀ g : GDB, g.status = "break" →
      g.StepInto.2.status = "break" ∧ g.StepOver.2.status = "break") ∧
    (∀ (op : GDBOp) (g : GDB), (applyOp op g).status = g.status ∨ (applyOp op g).status = "break") := by
  refine ⟨fun _ _ _ _ => rfl, ?_, ?_, ?_⟩
  · intro g h
    exact ⟨⟨by rw [stepInto_status, if_pos h], stepInto_sent_starting g h⟩,
      ⟨by rw [stepOver_status, if_pos h], stepOver_sent_starting g h⟩⟩
  · intro g h
    constructor
    · rw [stepInto_status, if_neg (by rw [h]; decide), h]
    · rw [stepOver_status, if_neg (by rw [h]; decide), h]
  · intro op g
    cases op with
    | initOp => exact Or.inl (status_Init g)
    | statusOp => exact Or.inl rfl
    | featuresOp => exact Or.inl rfl
    | stepIntoOp =>
      by_cases hs : g.status = "starting"
      · exact Or.inr (by rw [show (applyOp .stepIntoOp g) = g.StepInto.2 from rfl,
          stepInto_status, if_pos hs])
      · exact Or.inl (by rw [show (applyOp .stepIntoOp g) = g.StepInto.2 from rfl,
          stepInto_status, if_neg hs])
    | stepOverOp =>
      by_cases hs : g.status = "starting"
      · exact Or.inr (by rw [show (applyOp .stepOverOp g) = g.StepOver.2 from rfl,
          stepOver_status, if_pos hs])
      · exact Or.inl (by rw [show (applyOp .stepOverOp g) = g.StepOver.2 from rfl,
          stepOver_status, if_neg hs])
    | stackDepthOp => exact Or.inl rfl
    | stackGetOp d => exact Or.inl (status_StackGet g d)
    | contextNamesOp d => exact Or.inl rfl
    | contextGetOp d c => exact Or.inl (status_ContextGet g d c)
    | propertyGetOp d c n => exact Or.inl (status_PropertyGet g d c n)
    | breakpointSetOp t f n => exact Or.inl (status_BreakpointSet g t f n)

/-- C4 witness: a freshly constructed adapter is in "starting"; its first
StepInto runs the start sequence and moves it to "break"; a later StepOver
keeps "break". -/
theorem gdb_state_machine_witness :
    (New "t" "ik" "ses" []).status = "starting" ∧
    (New "t" "ik" "ses" []).StepInto.2.status = "break" ∧
    (New "t" "ik" "ses" []).StepInto.2.sent = ([] : List String) ++ ["b 1", "run", "s"] ∧
    (New "t" "ik" "ses" []).StepInto.2.StepOver.2.status = "break" :=
  ⟨gdb_state_machine.1 "t" "ik" "ses" [],
   ((gdb_state_machine.2.1 (New "t" "ik" "ses" []) rfl).1).1,
   ((gdb_state_machine.2.1 (New "t" "ik" "ses" []) rfl).1).2,
   (gdb_state_machine.2.2.1 (New "t" "ik" "ses" []).StepInto.2
     ((gdb_state_machine.2.1 (New "t" "ik" "ses" []) rfl).1).1).2⟩
